import Mathlib

/-!
Shallow embedding of the room-synchronization core of the SAT Duel
two-player quiz game.

Source files embedded:
* `client/src/hooks/useGameRoom.ts` — the Room Store Adapter: `createRoom`,
  `joinRoom`, `submitAnswer`, `nextQuestion`, `leaveRoom`, `setScores`.
* `client/src/pages/Home.tsx` — the controller glue: the answer-processing
  effect guarded by `processedQuestionRef`, the score-sync effect, and
  `handlePlayAgain`.
* `shared/schema.ts` — the `Question`, room and `GameState` shapes.

The remote Firebase Realtime Database is modelled as an association list
from room code to room document.  Firebase maps (`scores`, `answers`) are
modelled as association lists from player id to number; an absent map is
the empty list (Firebase never stores empty objects).  Firebase `update`
with a `null` value deletes the field, which we model structurally.
-/

namespace SatDuel

/-! ## Association-map primitives

JavaScript object semantics used by the source:
* `findVal` models property lookup `obj[k]`;
* `setKey` models the object spread `\x7b ...obj, [k]: v \x7d` and the
  Firebase single-path `set`: an existing key keeps its position and gets
  the new value, a fresh key is appended;
* `eraseKey` models a Firebase merge of `null` into the key's path;
* `mergeMap` models Firebase `update(ref, obj)`: every key of `obj` is
  set into the target map, other keys are untouched. -/

def findVal {β : Type} (m : List (String × β)) (k : String) : Option β :=
  match m with
  | [] => none
  | p :: rest => if p.1 = k then some p.2 else findVal rest k

def setKey {β : Type} (m : List (String × β)) (k : String) (v : β) :
    List (String × β) :=
  match m with
  | [] => [(k, v)]
  | p :: rest => if p.1 = k then (k, v) :: rest else p :: setKey rest k v

def eraseKey {β : Type} (m : List (String × β)) (k : String) :
    List (String × β) :=
  match m with
  | [] => []
  | p :: rest => if p.1 = k then eraseKey rest k else p :: eraseKey rest k

def mergeMap {β : Type} (m : List (String × β)) (upd : List (String × β)) :
    List (String × β) :=
  match upd with
  | [] => m
  | p :: rest => mergeMap (setKey m p.1 p.2) rest

theorem findVal_setKey_self {β : Type} (m : List (String × β)) (k : String) (v : β) :
    findVal (setKey m k v) k = some v := by
  induction m with
  | nil => simp [setKey, findVal]
  | cons p rest ih =>
      by_cases h : p.1 = k
      · simp [setKey, findVal, h]
      · simp [setKey, findVal, h, ih]

theorem findVal_setKey_ne {β : Type} (m : List (String × β)) (k k' : String) (v : β)
    (h : k' ≠ k) : findVal (setKey m k v) k' = findVal m k' := by
  induction m with
  | nil => simp [setKey, findVal, Ne.symm h]
  | cons p rest ih =>
      by_cases hp : p.1 = k
      · subst hp
        simp [setKey, findVal, Ne.symm h]
      · simp [setKey, findVal, hp, ih]

theorem findVal_eraseKey_self {β : Type} (m : List (String × β)) (k : String) :
    findVal (eraseKey m k) k = none := by
  induction m with
  | nil => simp [eraseKey, findVal]
  | cons p rest ih =>
      by_cases h : p.1 = k
      · simp [eraseKey, h, ih]
      · simp [eraseKey, findVal, h, ih]

theorem findVal_eraseKey_ne {β : Type} (m : List (String × β)) (k k' : String)
    (h : k' ≠ k) : findVal (eraseKey m k) k' = findVal m k' := by
  induction m with
  | nil => simp [eraseKey]
  | cons p rest ih =>
      by_cases hp : p.1 = k
      · subst hp
        simp [eraseKey, findVal, Ne.symm h, ih]
      · simp [eraseKey, findVal, hp, ih]

/-! ## Data model (`shared/schema.ts`, `useGameRoom.ts`) -/

/-- `GameState` from `shared/schema.ts`:
`"lobby" | "waiting" | "playing" | "gameover"`. -/
inductive GameState where
  | lobby
  | waiting
  | playing
  | gameover
deriving DecidableEq

/-- The `content` object of a `Question` (`shared/schema.ts`). -/
structure QuestionContent where
  stem : String
  answerOptions : List String
  correct_answer : List String
  rationale : String
deriving DecidableEq

/-- `Question` from `shared/schema.ts` (the fields the game logic reads).
`module` and `difficulty` are kept as raw strings because the adapter
treats them as such (lower-casing, truthiness checks). -/
structure Question where
  id : String
  module : String
  difficulty : String
  skill_desc : String
  content : QuestionContent
deriving DecidableEq

/-- The optional `config` argument of `createRoom` in `useGameRoom.ts`:
`\x7b modules?, difficulties?, numQuestions?, skills? \x7d`, every field
optional. -/
structure RoomConfig where
  modules : Option (List String) := none
  difficulties : Option (List String) := none
  numQuestions : Option Nat := none
  skills : Option (List String) := none
deriving DecidableEq

/-- `GameRoomData` from `useGameRoom.ts`.  The optional `answers`, `scores`
and `questions` maps are modelled with the empty list standing for an
absent field (Firebase stores no empty containers). -/
structure GameRoomData where
  currentQuestion : Nat
  started : Bool
  players : List String
  answers : List (String × Nat)
  scores : List (String × Nat)
  config : Option RoomConfig
  questions : List String
deriving DecidableEq

/-- The remote store: `rooms/\x7broomId\x7d` documents keyed by room code. -/
abbrev Store := List (String × GameRoomData)

/-! ## Room Store Adapter (`useGameRoom.ts`) -/

/-- JavaScript `toLowerCase()` on the ASCII module/category names:
lower-case every character.  (Defined over the character list, which is
what `String.toLower` computes, so that concrete instances evaluate.) -/
def strToLower (s : String) : String := ⟨s.data.map Char.toLower⟩

/-- `config?.modules?.map(m => String(m).toLowerCase()) || []`. -/
def cfgModulesLower (config : Option RoomConfig) : List String :=
  ((config.bind (·.modules)).getD []).map strToLower

/-- `config?.difficulties || []`. -/
def cfgDifficulties (config : Option RoomConfig) : List String :=
  (config.bind (·.difficulties)).getD []

/-- `const num = config?.numQuestions || 10`: JavaScript `||` turns both an
absent field and an explicit `0` into the default `10`. -/
def cfgNum (config : Option RoomConfig) : Nat :=
  match config.bind (·.numQuestions) with
  | some n => if n = 0 then 10 else n
  | none => 10

/-- The two sequential filters of `createRoom`: keep questions whose
lower-cased module is listed (when any module is selected) and whose
difficulty is truthy and listed (when any difficulty is selected). -/
def filterQuestions (catalog : List Question) (config : Option RoomConfig) :
    List Question :=
  let modulesLower := cfgModulesLower config
  let difficulties := cfgDifficulties config
  let f1 :=
    if modulesLower ≠ [] then
      catalog.filter (fun q => modulesLower.contains (strToLower q.module))
    else catalog
  if difficulties ≠ [] then
    f1.filter (fun q => q.difficulty ≠ "" && difficulties.contains q.difficulty)
  else f1

/-- `createRoom` from `useGameRoom.ts`.  The non-deterministic
`filtered.sort(() => Math.random() - 0.5)` is abstracted by the `shuffle`
parameter; theorems assume it permutes its input, which every run of the
JavaScript sort does.  On success the initial document is written with
`set` (full replace); `shuffled.length === 0` aborts before any write. -/
def createRoom (catalog : List Question) (shuffle : List Question → List Question)
    (playerId : String) (store : Store) (newRoomId : String)
    (config : Option RoomConfig) : Bool × Store :=
  let filtered := filterQuestions catalog config
  let shuffled := (shuffle filtered).take (cfgNum config)
  if shuffled.length = 0 then (false, store)
  else
    (true, setKey store newRoomId
      { currentQuestion := 0
        started := false
        players := [playerId]
        scores := [(playerId, 0)]
        answers := []
        config := config
        questions := shuffled.map (·.id) })

/-- `joinRoom` from `useGameRoom.ts`: missing room or full room rejects;
a member rejoining is accepted without a write; otherwise one `update`
appends the player, sets `started`, and spreads a zero score entry for
the joiner into the score map. -/
def joinRoom (playerId : String) (store : Store) (roomCode : String) :
    Bool × Store :=
  match findVal store roomCode with
  | none => (false, store)
  | some data =>
      let players := data.players
      if playerId ∈ players then (true, store)
      else if 2 ≤ players.length then (false, store)
      else
        (true, setKey store roomCode
          { data with
              players := players ++ [playerId]
              started := true
              scores := setKey data.scores playerId 0 })

/-- `submitAnswer` from `useGameRoom.ts`.  A missing room, a
`currentQuestion` index outside the stored `questions` list, or a question
id absent from the catalog all end in the catch block and return `false`
with no write; otherwise `set` writes exactly
`rooms/\x7broomCode\x7d/answers/\x7bplayerId\x7d = answerIndex`. -/
def submitAnswer (catalog : List Question) (playerId : String) (store : Store)
    (roomCode : String) (answerIndex : Nat) : Bool × Store :=
  match findVal store roomCode with
  | none => (false, store)
  | some data =>
      match data.questions.get? data.currentQuestion with
      | none => (false, store)
      | some questionId =>
          match catalog.find? (fun q => q.id == questionId) with
          | none => (false, store)
          | some _ =>
              (true, setKey store roomCode
                { data with answers := setKey data.answers playerId answerIndex })

/-- `nextQuestion` from `useGameRoom.ts`: a single `update` that sets
`currentQuestion` and deletes the whole `answers` map (`answers: null`).
Only rooms that exist are updated (the claims concern existing rooms). -/
def nextQuestion (store : Store) (roomCode : String) (questionIndex : Nat) :
    Store :=
  match findVal store roomCode with
  | none => store
  | some data =>
      setKey store roomCode
        { data with currentQuestion := questionIndex, answers := [] }

/-- `leaveRoom` from `useGameRoom.ts`: the sole member leaving removes the
whole document; otherwise one `update` filters the player out of `players`
and deletes the player's `scores` and `answers` entries. -/
def leaveRoom (playerId : String) (store : Store) (roomCode : String) : Store :=
  match findVal store roomCode with
  | none => store
  | some data =>
      let players := data.players
      if players.length = 1 ∧ playerId ∈ players then
        eraseKey store roomCode
      else
        setKey store roomCode
          { data with
              players := players.filter (fun id => id ≠ playerId)
              scores := eraseKey data.scores playerId
              answers := eraseKey data.answers playerId }

/-- `setScores` from `useGameRoom.ts`: `update` at
`rooms/\x7broomCode\x7d/scores` merges the given entries into the score
map without touching unrelated keys. -/
def setScores (store : Store) (roomCode : String)
    (scoresObj : List (String × Nat)) : Store :=
  match findVal store roomCode with
  | none => store
  | some data =>
      setKey store roomCode { data with scores := mergeMap data.scores scoresObj }

/-! ## Game Flow Presenter / Controller glue (`Home.tsx`) -/

/-- `roomData?.players?.find((id) => id !== playerId)` in `Home.tsx`. -/
def opponentId (room : GameRoomData) (playerId : String) : Option String :=
  room.players.find? (fun id => decide (id ≠ playerId))

/-- `correct_answer.includes(answerOptions[idx])` in the answer-processing
effect: an out-of-range choice index yields `undefined`, and
`includes(undefined)` on a string list is `false`. -/
def choiceCorrect (q : Question) (idx : Nat) : Bool :=
  match q.content.answerOptions.get? idx with
  | some c => q.content.correct_answer.contains c
  | none => false

/-- The local React state of `Home` that the room-sync claims touch:
`gameState`, `playerScore`, `opponentScore`, `selectedAnswer`, and the
`processedQuestionRef` guard (−1 when no index has been consumed). -/
structure HomeState where
  gameState : GameState
  playerScore : Nat
  opponentScore : Nat
  selectedAnswer : Option Nat
  processedQuestion : Int
deriving DecidableEq

/-- The score-sync effect of `Home.tsx`: when the snapshot carries a score
map (`if (roomData?.scores)` — an absent map, modelled as `[]`, is falsy),
copy `scores[playerId] || 0` and `scores[opponentId || ""] || 0` into the
local counters. -/
def syncScores (playerId : String) (room : GameRoomData) (st : HomeState) :
    HomeState :=
  if room.scores = [] then st
  else
    { st with
        playerScore := (findVal room.scores playerId).getD 0
        opponentScore :=
          (findVal room.scores ((opponentId room playerId).getD "")).getD 0 }

/-- The answer-processing effect of `Home.tsx` run on one snapshot.
Returns `none` when the effect would throw (the snapshot's
`currentQuestion` indexes past the locally built `questions` list, so
`questions[currentQuestionIndex].content` dereferences `undefined`;
the ref assignment that precedes the throw is not observable afterwards
and is dropped here).  Otherwise returns the updated local state and the
score object passed to `setScores`, when the resolution branch fired:
the effect bails out unless the phase is `playing`, the
`processedQuestionRef` guard differs from the snapshot's index, and both
the local player and `opponentId || ""` have entries in `answers`.  On
resolution it marks the index consumed, adds 1 per correct participant to
the local counters, and emits the merged totals for the player and (when
present) the opponent. -/
def processAnswers (playerId : String) (questions : List Question)
    (st : HomeState) (room : GameRoomData) :
    Option (HomeState × Option (List (String × Nat))) :=
  if st.gameState ≠ GameState.playing then some (st, none)
  else if st.processedQuestion = (room.currentQuestion : Int) then some (st, none)
  else
    let oppId := opponentId room playerId
    match findVal room.answers playerId, findVal room.answers (oppId.getD "") with
    | some playerAnswer, some opponentAnswer =>
        match questions.get? room.currentQuestion with
        | none => none
        | some currentQuestion =>
            let newPlayerScore :=
              st.playerScore + (if choiceCorrect currentQuestion playerAnswer then 1 else 0)
            let newOpponentScore :=
              st.opponentScore + (if choiceCorrect currentQuestion opponentAnswer then 1 else 0)
            let toUpdate :=
              (playerId, newPlayerScore) ::
                (match oppId with
                 | some o => [(o, newOpponentScore)]
                 | none => [])
            some
              ({ st with
                  playerScore := newPlayerScore
                  opponentScore := newOpponentScore
                  processedQuestion := (room.currentQuestion : Int) },
               some toUpdate)
    | _, _ => some (st, none)

/-- The local half of `handlePlayAgain` in `Home.tsx`: clear the selected
answer, zero both local counters, reset the consumed-index guard, and
return to the `playing` phase.  Its only remote write is
`nextQuestion(roomCode, 0)`. -/
def handlePlayAgain (st : HomeState) : HomeState :=
  { st with
      selectedAnswer := none
      playerScore := 0
      opponentScore := 0
      processedQuestion := -1
      gameState := GameState.playing }

/-! ## Concrete fixtures used by the witnesses -/

/-- An easy math question, the only catalog entry of the scenario in the
spec: id q7, one correct option at index 0. -/
def sampleQuestion : Question :=
  { id := "q7"
    module := "math"
    difficulty := "E"
    skill_desc := ""
    content :=
      { stem := "capital?"
        answerOptions := ["Paris", "London"]
        correct_answer := ["Paris"]
        rationale := "" } }

/-- A one-question catalog. -/
def sampleCatalog : List Question := [sampleQuestion]

/-- The creation config of the spec scenario: modules math, difficulty E,
one question. -/
def sampleConfig : Option RoomConfig :=
  some { modules := some ["math"], difficulties := some ["E"], numQuestions := some 1 }

/-- A two-player room on question 0 where both players have answered. -/
def sampleRoom : GameRoomData :=
  { currentQuestion := 0
    started := true
    players := ["alice", "bob"]
    answers := [("alice", 0), ("bob", 1)]
    scores := [("alice", 0), ("bob", 0)]
    config := none
    questions := ["q7"] }

/-- A freshly created one-player room. -/
def soloRoom : GameRoomData :=
  { currentQuestion := 0
    started := false
    players := ["creator"]
    answers := []
    scores := [("creator", 0)]
    config := none
    questions := ["q7"] }

/-- A store holding the two-player room under code 1234. -/
def sampleStore : Store := [("1234", sampleRoom)]

/-- A store holding the one-player room under code 1234. -/
def soloStore : Store := [("1234", soloRoom)]

/-- A local client state in the playing phase that has consumed no index. -/
def sampleState : HomeState :=
  { gameState := GameState.playing
    playerScore := 0
    opponentScore := 0
    selectedAnswer := none
    processedQuestion := -1 }

/-! ## Claim theorems -/

/-- C3: for every configuration whose module/difficulty filter matches no
question in the catalog, `createRoom` returns `false` and performs no
write: the whole store, and in particular the document at the target room
code, is exactly what it was before the call. -/
theorem createRoom_no_match_is_noop (catalog : List Question)
    (shuffle : List Question → List Question) (playerId : String)
    (store : Store) (newRoomId : String) (config : Option RoomConfig)
    (hperm : ∀ l : List Question, (shuffle l).Perm l)
    (hempty : filterQuestions catalog config = []) :
    createRoom catalog shuffle playerId store newRoomId config = (false, store) := by
  have h1 : shuffle [] = [] := (hperm []).eq_nil
  simp [createRoom, hempty, h1]

/-- Witness for C3: an all-reading filter on a pure-math catalog matches
nothing, so creation fails and the store keeps its contents. -/
theorem createRoom_no_match_is_noop_witness :
    createRoom sampleCatalog (fun l => l) "creator" soloStore "9999"
      (some { modules := some ["reading"] }) = (false, soloStore) :=
  createRoom_no_match_is_noop sampleCatalog (fun l => l) "creator" soloStore "9999"
    (some { modules := some ["reading"] }) (fun l => List.Perm.refl l) (by decide)

/-- C5: `joinRoom` by a third identity on a room that already holds two
distinct participants returns `false` and leaves the store — hence every
field of the room document — unchanged. -/
theorem joinRoom_full_rejects_third (store : Store) (roomCode : String)
    (a b c : String) (room : GameRoomData)
    (hroom : findVal store roomCode = some room)
    (hplayers : room.players = [a, b]) (hab : a ≠ b)
    (hca : c ≠ a) (hcb : c ≠ b) :
    joinRoom c store roomCode = (false, store) := by
  simp [joinRoom, hroom, hplayers, hca, hcb]

/-- Witness for C5: carol cannot join the full alice/bob room. -/
theorem joinRoom_full_rejects_third_witness :
    joinRoom "carol" sampleStore "1234" = (false, sampleStore) :=
  joinRoom_full_rejects_third sampleStore "1234" "alice" "bob" "carol" sampleRoom
    (by decide) (by decide) (by decide) (by decide) (by decide)

/-- C6: `nextQuestion` on an existing room sets the current-question
pointer to the new index and clears the whole answer map in the same
single update, leaving players, scores, questions, started and config
unchanged. -/
theorem nextQuestion_sets_index_and_clears_answers (store : Store)
    (roomCode : String) (questionIndex : Nat) (room : GameRoomData)
    (hroom : findVal store roomCode = some room) :
    ∃ room', findVal (nextQuestion store roomCode questionIndex) roomCode = some room' ∧
      room'.currentQuestion = questionIndex ∧
      (∀ p, findVal room'.answers p = none) ∧
      room'.players = room.players ∧
      room'.scores = room.scores ∧
      room'.questions = room.questions ∧
      room'.started = room.started ∧
      room'.config = room.config := by
  refine ⟨{ room with currentQuestion := questionIndex, answers := [] },
    ?_, rfl, ?_, rfl, rfl, rfl, rfl, rfl⟩
  · simp [nextQuestion, hroom, findVal_setKey_self]
  · intro p
    simp [findVal]

/-- Witness for C6: advancing the sample room to index 1 clears both
recorded answers and touches nothing else. -/
theorem nextQuestion_sets_index_and_clears_answers_witness :
    ∃ room', findVal (nextQuestion sampleStore "1234" 1) "1234" = some room' ∧
      room'.currentQuestion = 1 ∧
      (∀ p, findVal room'.answers p = none) ∧
      room'.players = sampleRoom.players ∧
      room'.scores = sampleRoom.scores ∧
      room'.questions = sampleRoom.questions ∧
      room'.started = sampleRoom.started ∧
      room'.config = sampleRoom.config :=
  nextQuestion_sets_index_and_clears_answers sampleStore "1234" 1 sampleRoom (by decide)

/-- C2: for every configuration with requested count at least 1 (the code
computes `cfgNum config`, and the claim fixes it as the configured count)
whose filter matches at least one catalog question, `createRoom` succeeds
and writes an initial room document with current question 0, started
false, players holding only the creator, a zero score entry for the
creator alone, and a questions list of length
min(count, matching questions) containing only identifiers of questions
that pass the module/difficulty filter. -/
theorem createRoom_success_spec (catalog : List Question)
    (shuffle : List Question → List Question) (playerId : String)
    (store : Store) (newRoomId : String) (config : Option RoomConfig)
    (count : Nat)
    (hperm : ∀ l : List Question, (shuffle l).Perm l)
    (hnum : cfgNum config = count)
    (hcount : 1 ≤ count)
    (hmatch : filterQuestions catalog config ≠ []) :
    (createRoom catalog shuffle playerId store newRoomId config).1 = true ∧
    ∃ room, findVal (createRoom catalog shuffle playerId store newRoomId config).2
        newRoomId = some room ∧
      room.currentQuestion = 0 ∧
      room.started = false ∧
      room.players = [playerId] ∧
      room.scores = [(playerId, 0)] ∧
      room.questions.length = min count (filterQuestions catalog config).length ∧
      (∀ qid ∈ room.questions,
        ∃ q, q ∈ filterQuestions catalog config ∧ q.id = qid) := by
  have hlen : ((shuffle (filterQuestions catalog config)).take (cfgNum config)).length
      = min count (filterQuestions catalog config).length := by
    rw [List.length_take, (hperm _).length_eq, hnum]
  have hpos : 0 < (filterQuestions catalog config).length :=
    List.length_pos.mpr hmatch
  have hne : ¬ ((shuffle (filterQuestions catalog config)).take (cfgNum config)).length = 0 := by
    rw [hlen]
    omega
  have hcr : createRoom catalog shuffle playerId store newRoomId config =
      (true, setKey store newRoomId
        { currentQuestion := 0
          started := false
          players := [playerId]
          scores := [(playerId, 0)]
          answers := []
          config := config
          questions :=
            ((shuffle (filterQuestions catalog config)).take (cfgNum config)).map (·.id) }) := by
    simp only [createRoom]
    rw [if_neg hne]
  rw [hcr]
  refine ⟨rfl, _, findVal_setKey_self _ _ _, rfl, rfl, rfl, rfl, ?_, ?_⟩
  · simpa using hlen
  · intro qid hqid
    simp only [List.mem_map] at hqid
    obtain ⟨q, hq1, hq2⟩ := hqid
    exact ⟨q, (hperm _).mem_iff.mp (List.take_subset _ _ hq1), hq2⟩

/-- Witness for C2: the spec scenario — modules math, difficulty E,
count 1, a catalog whose only easy math question is q7 — creates room
1234 as `questions = [q7]`, pointer 0, not started, creator alone with a
zero score. -/
theorem createRoom_success_spec_witness :
    (createRoom sampleCatalog (fun l => l) "creator" [] "1234" sampleConfig).1 = true ∧
    ∃ room, findVal (createRoom sampleCatalog (fun l => l) "creator" [] "1234" sampleConfig).2
        "1234" = some room ∧
      room.currentQuestion = 0 ∧
      room.started = false ∧
      room.players = ["creator"] ∧
      room.scores = [("creator", 0)] ∧
      room.questions.length = min 1 (filterQuestions sampleCatalog sampleConfig).length ∧
      (∀ qid ∈ room.questions,
        ∃ q, q ∈ filterQuestions sampleCatalog sampleConfig ∧ q.id = qid) :=
  createRoom_success_spec sampleCatalog (fun l => l) "creator" [] "1234" sampleConfig 1
    (fun l => List.Perm.refl l) (by decide) (by decide) (by decide)

/-- C4: `joinRoom` by a second, distinct identity on a room whose player
list holds a single participant (with the score entry room creation
seeds) succeeds, yields exactly the two participants with a score entry
for each and sets the started flag; and `joinRoom` by an identity already
in the player list is idempotent: it returns success without writing, so
the participant is not duplicated and the room is unchanged. -/
theorem joinRoom_second_player_and_idempotent :
    (∀ (store : Store) (roomCode p j : String) (room : GameRoomData),
      findVal store roomCode = some room →
      room.players = [p] →
      j ≠ p →
      (findVal room.scores p).isSome →
      (joinRoom j store roomCode).1 = true ∧
      ∃ room', findVal (joinRoom j store roomCode).2 roomCode = some room' ∧
        room'.players = [p, j] ∧
        (findVal room'.scores p).isSome ∧
        findVal room'.scores j = some 0 ∧
        room'.started = true) ∧
    (∀ (store : Store) (roomCode j : String) (room : GameRoomData),
      findVal store roomCode = some room →
      j ∈ room.players →
      joinRoom j store roomCode = (true, store)) := by
  constructor
  · intro store roomCode p j room hroom hplayers hne hscore
    have hjoin : joinRoom j store roomCode =
        (true, setKey store roomCode
          { room with
              players := room.players ++ [j]
              started := true
              scores := setKey room.scores j 0 }) := by
      simp [joinRoom, hroom, hplayers, hne]
    rw [hjoin]
    refine ⟨rfl, _, findVal_setKey_self _ _ _, ?_, ?_, findVal_setKey_self _ _ _, rfl⟩
    · rw [hplayers]
      rfl
    · rw [findVal_setKey_ne _ _ _ _ (Ne.symm hne)]
      exact hscore
  · intro store roomCode j room hroom hmem
    simp [joinRoom, hroom, hmem]

/-- Witness for C4: bob joins creator's fresh room and both end up listed
with score entries; alice rejoining her own room changes nothing. -/
theorem joinRoom_second_player_and_idempotent_witness :
    ((joinRoom "bob" soloStore "1234").1 = true ∧
      ∃ room', findVal (joinRoom "bob" soloStore "1234").2 "1234" = some room' ∧
        room'.players = ["creator", "bob"] ∧
        (findVal room'.scores "creator").isSome ∧
        findVal room'.scores "bob" = some 0 ∧
        room'.started = true) ∧
    joinRoom "alice" sampleStore "1234" = (true, sampleStore) :=
  ⟨joinRoom_second_player_and_idempotent.1 soloStore "1234" "creator" "bob" soloRoom
      (by decide) (by decide) (by decide) (by decide),
   joinRoom_second_player_and_idempotent.2 sampleStore "1234" "alice" sampleRoom
      (by decide) (by decide)⟩

/-- C7: `leaveRoom` by the sole remaining participant deletes the room,
so a subsequent read at that code is absent; `leaveRoom` by one of two
participants removes exactly the departing participant's entries from the
player list, score map and answer map, keeping the other participant's
membership, score and answer entries and every other room field. -/
theorem leaveRoom_sole_deletes_partial_preserves :
    (∀ (store : Store) (roomCode p : String) (room : GameRoomData),
      findVal store roomCode = some room →
      room.players = [p] →
      findVal (leaveRoom p store roomCode) roomCode = none) ∧
    (∀ (store : Store) (roomCode p : String) (room : GameRoomData),
      findVal store roomCode = some room →
      room.players.length = 2 →
      p ∈ room.players →
      ∃ room', findVal (leaveRoom p store roomCode) roomCode = some room' ∧
        (∀ x, x ∈ room'.players ↔ (x ∈ room.players ∧ x ≠ p)) ∧
        findVal room'.scores p = none ∧
        findVal room'.answers p = none ∧
        (∀ q, q ≠ p → findVal room'.scores q = findVal room.scores q) ∧
        (∀ q, q ≠ p → findVal room'.answers q = findVal room.answers q) ∧
        room'.currentQuestion = room.currentQuestion ∧
        room'.started = room.started ∧
        room'.questions = room.questions ∧
        room'.config = room.config) := by
  constructor
  · intro store roomCode p room hroom hplayers
    have hdel : leaveRoom p store roomCode = eraseKey store roomCode := by
      simp [leaveRoom, hroom, hplayers]
    rw [hdel]
    exact findVal_eraseKey_self _ _
  · intro store roomCode p room hroom hlen hmem
    have hcond : ¬ (room.players.length = 1 ∧ p ∈ room.players) := by
      rintro ⟨h1, -⟩
      omega
    have hupd : leaveRoom p store roomCode =
        setKey store roomCode
          { room with
              players := room.players.filter (fun id => id ≠ p)
              scores := eraseKey room.scores p
              answers := eraseKey room.answers p } := by
      simp [leaveRoom, hroom, hcond]
    rw [hupd]
    refine ⟨_, findVal_setKey_self _ _ _, ?_, findVal_eraseKey_self _ _,
      findVal_eraseKey_self _ _, ?_, ?_, rfl, rfl, rfl, rfl⟩
    · intro x
      simp [List.mem_filter]
    · intro q hq
      exact findVal_eraseKey_ne _ _ _ hq
    · intro q hq
      exact findVal_eraseKey_ne _ _ _ hq

/-- Witness for C7: creator leaving the solo room deletes it; alice
leaving the two-player room keeps bob's membership, score and answer. -/
theorem leaveRoom_sole_deletes_partial_preserves_witness :
    findVal (leaveRoom "creator" soloStore "1234") "1234" = none ∧
    ∃ room', findVal (leaveRoom "alice" sampleStore "1234") "1234" = some room' ∧
      (∀ x, x ∈ room'.players ↔ (x ∈ sampleRoom.players ∧ x ≠ "alice")) ∧
      findVal room'.scores "alice" = none ∧
      findVal room'.answers "alice" = none ∧
      (∀ q, q ≠ "alice" → findVal room'.scores q = findVal sampleRoom.scores q) ∧
      (∀ q, q ≠ "alice" → findVal room'.answers q = findVal sampleRoom.answers q) ∧
      room'.currentQuestion = sampleRoom.currentQuestion ∧
      room'.started = sampleRoom.started ∧
      room'.questions = sampleRoom.questions ∧
      room'.config = sampleRoom.config :=
  ⟨leaveRoom_sole_deletes_partial_preserves.1 soloStore "1234" "creator" soloRoom
      (by decide) (by decide),
   leaveRoom_sole_deletes_partial_preserves.2 sampleStore "1234" "alice" sampleRoom
      (by decide) (by decide) (by decide)⟩

/-- C8: `submitAnswer` on a nonexistent room code returns the boolean
`false` (the internal throw is caught inside the adapter) and leaves the
store untouched; on success it writes exactly the submitting
participant's own entry of the current answer map, changes no other
answer entry and no other room field; and the boolean outcome never
depends on the submitted choice index — correctness is not validated. -/
theorem submitAnswer_boolean_failure_and_own_write :
    (∀ (catalog : List Question) (playerId : String) (store : Store)
        (roomCode : String) (answerIndex : Nat),
      findVal store roomCode = none →
      submitAnswer catalog playerId store roomCode answerIndex = (false, store)) ∧
    (∀ (catalog : List Question) (playerId : String) (store : Store)
        (roomCode : String) (answerIndex : Nat) (room : GameRoomData),
      findVal store roomCode = some room →
      (submitAnswer catalog playerId store roomCode answerIndex).1 = true →
      ∃ room', findVal (submitAnswer catalog playerId store roomCode answerIndex).2
          roomCode = some room' ∧
        findVal room'.answers playerId = some answerIndex ∧
        (∀ q, q ≠ playerId → findVal room'.answers q = findVal room.answers q) ∧
        room'.scores = room.scores ∧
        room'.players = room.players ∧
        room'.currentQuestion = room.currentQuestion ∧
        room'.started = room.started ∧
        room'.questions = room.questions ∧
        room'.config = room.config) ∧
    (∀ (catalog : List Question) (playerId : String) (store : Store)
        (roomCode : String) (i j : Nat),
      (submitAnswer catalog playerId store roomCode i).1 =
        (submitAnswer catalog playerId store roomCode j).1) := by
  refine ⟨?_, ?_, ?_⟩
  · intro catalog playerId store roomCode answerIndex hnone
    simp [submitAnswer, hnone]
  · intro catalog playerId store roomCode answerIndex room hroom hsucc
    rcases hq : room.questions[room.currentQuestion]? with _ | qid
    · exfalso
      simp [submitAnswer, hroom, hq] at hsucc
    · rcases hf : catalog.find? (fun q => q.id == qid) with _ | qq
      · exfalso
        simp [submitAnswer, hroom, hq, hf] at hsucc
      · have hsub : submitAnswer catalog playerId store roomCode answerIndex =
            (true, setKey store roomCode
              { room with answers := setKey room.answers playerId answerIndex }) := by
          simp [submitAnswer, hroom, hq, hf]
        rw [hsub]
        refine ⟨_, findVal_setKey_self _ _ _, findVal_setKey_self _ _ _, ?_,
          rfl, rfl, rfl, rfl, rfl, rfl⟩
        intro q hq'
        exact findVal_setKey_ne _ _ _ _ hq'
  · intro catalog playerId store roomCode i j
    rcases hv : findVal store roomCode with _ | room
    · simp [submitAnswer, hv]
    · rcases hq : room.questions[room.currentQuestion]? with _ | qid
      · simp [submitAnswer, hv, hq]
      · rcases hf : catalog.find? (fun q => q.id == qid) with _ | qq
        · simp [submitAnswer, hv, hq, hf]
        · simp [submitAnswer, hv, hq, hf]

/-- Witness for C8: submitting to absent room 9999 fails and keeps the
store; alice's successful submission of index 1 to room 1234 rewrites
only her own answer entry. -/
theorem submitAnswer_boolean_failure_and_own_write_witness :
    submitAnswer sampleCatalog "alice" sampleStore "9999" 1 = (false, sampleStore) ∧
    ∃ room', findVal (submitAnswer sampleCatalog "alice" sampleStore "1234" 1).2
        "1234" = some room' ∧
      findVal room'.answers "alice" = some 1 ∧
      (∀ q, q ≠ "alice" → findVal room'.answers q = findVal sampleRoom.answers q) ∧
      room'.scores = sampleRoom.scores ∧
      room'.players = sampleRoom.players ∧
      room'.currentQuestion = sampleRoom.currentQuestion ∧
      room'.started = sampleRoom.started ∧
      room'.questions = sampleRoom.questions ∧
      room'.config = sampleRoom.config :=
  ⟨submitAnswer_boolean_failure_and_own_write.1 sampleCatalog "alice" sampleStore "9999" 1
      (by decide),
   submitAnswer_boolean_failure_and_own_write.2.1 sampleCatalog "alice" sampleStore "1234" 1
      sampleRoom (by decide) (by decide)⟩

/-- C1: with both participants' answers recorded for the current index, a
client's answer-processing effect fires at most once per index: after one
run of the effect (which marks the index consumed), running it again on
the same both-answered snapshot returns the local state unchanged and
emits no score write, so neither participant's score — local or remote —
is incremented a second time. -/
theorem resolution_runs_once_per_index (playerId : String)
    (questions : List Question) (st : HomeState) (room : GameRoomData)
    (hphase : st.gameState = GameState.playing)
    (hpa : (findVal room.answers playerId).isSome)
    (hoa : (findVal room.answers ((opponentId room playerId).getD "")).isSome)
    (hq : room.currentQuestion < questions.length) :
    ∃ st1 w, processAnswers playerId questions st room = some (st1, w) ∧
      processAnswers playerId questions st1 room = some (st1, none) := by
  by_cases hp : st.processedQuestion = (room.currentQuestion : Int)
  · exact ⟨st, none, by simp [processAnswers, hphase, hp],
      by simp [processAnswers, hphase, hp]⟩
  · obtain ⟨pa, hpa'⟩ := Option.isSome_iff_exists.mp hpa
    obtain ⟨oa, hoa'⟩ := Option.isSome_iff_exists.mp hoa
    have hq' : questions[room.currentQuestion]? =
        some (questions.get ⟨room.currentQuestion, hq⟩) := by
      rw [List.getElem?_eq_getElem hq, List.get_eq_getElem]
    refine ⟨{ st with
        playerScore := st.playerScore +
          (if choiceCorrect (questions.get ⟨room.currentQuestion, hq⟩) pa then 1 else 0)
        opponentScore := st.opponentScore +
          (if choiceCorrect (questions.get ⟨room.currentQuestion, hq⟩) oa then 1 else 0)
        processedQuestion := (room.currentQuestion : Int) },
      some ((playerId, st.playerScore +
          (if choiceCorrect (questions.get ⟨room.currentQuestion, hq⟩) pa then 1 else 0)) ::
        (match opponentId room playerId with
         | some o => [(o, st.opponentScore +
             (if choiceCorrect (questions.get ⟨room.currentQuestion, hq⟩) oa then 1 else 0))]
         | none => [])), ?_, ?_⟩
    · simp [processAnswers, hphase, hp, hpa', hoa', hq']
    · simp [processAnswers, hphase]

/-- Witness for C1: alice's client processes the both-answered sample
snapshot once; the immediate second processing of the same snapshot is a
no-op with no score write. -/
theorem resolution_runs_once_per_index_witness :
    ∃ st1 w, processAnswers "alice" [sampleQuestion] sampleState sampleRoom = some (st1, w) ∧
      processAnswers "alice" [sampleQuestion] st1 sampleRoom = some (st1, none) :=
  resolution_runs_once_per_index "alice" [sampleQuestion] sampleState sampleRoom
    (by decide) (by decide) (by decide) (by decide)

/-- C10: the play-again transition writes no remote score field: its only
remote write is `nextQuestion(roomCode, 0)`, which resets the pointer and
clears the answer map while keeping the score map; locally it zeroes both
counters, and the next score-sync on the post-reset snapshot restores the
previous playthrough's remote totals into the local display. -/
theorem playAgain_keeps_remote_scores (store : Store) (roomCode playerId : String)
    (room : GameRoomData) (st : HomeState)
    (hroom : findVal store roomCode = some room)
    (hscores : room.scores ≠ []) :
    (handlePlayAgain st).playerScore = 0 ∧
    (handlePlayAgain st).opponentScore = 0 ∧
    ∃ room', findVal (nextQuestion store roomCode 0) roomCode = some room' ∧
      room'.scores = room.scores ∧
      room'.currentQuestion = 0 ∧
      room'.answers = [] ∧
      (syncScores playerId room' (handlePlayAgain st)).playerScore =
        (findVal room.scores playerId).getD 0 ∧
      (syncScores playerId room' (handlePlayAgain st)).opponentScore =
        (findVal room.scores ((opponentId room' playerId).getD "")).getD 0 := by
  refine ⟨rfl, rfl, { room with currentQuestion := 0, answers := [] },
    ?_, rfl, rfl, rfl, ?_, ?_⟩
  · simp [nextQuestion, hroom, findVal_setKey_self]
  · simp [syncScores, hscores]
  · simp [syncScores, hscores]

/-- Witness for C10: after play-again on the sample room, the remote
score map still holds the alice/bob totals and the sync restores them. -/
theorem playAgain_keeps_remote_scores_witness :
    (handlePlayAgain sampleState).playerScore = 0 ∧
    (handlePlayAgain sampleState).opponentScore = 0 ∧
    ∃ room', findVal (nextQuestion sampleStore "1234" 0) "1234" = some room' ∧
      room'.scores = sampleRoom.scores ∧
      room'.currentQuestion = 0 ∧
      room'.answers = [] ∧
      (syncScores "alice" room' (handlePlayAgain sampleState)).playerScore =
        (findVal sampleRoom.scores "alice").getD 0 ∧
      (syncScores "alice" room' (handlePlayAgain sampleState)).opponentScore =
        (findVal sampleRoom.scores ((opponentId room' "alice").getD "")).getD 0 :=
  playAgain_keeps_remote_scores sampleStore "1234" "alice" sampleRoom sampleState
    (by decide) (by decide)

/-- C9: within a playthrough every score-touching operation keeps each
participant's score entry and never decreases it, and every participant
that joins gets a score entry: (a) `createRoom` seeds the creator's entry
at 0; (b) `joinRoom` seeds the joiner's entry at 0 and preserves every
other entry exactly; (c) `submitAnswer` never changes the score map;
(d) the resolution score-merge, computed from locally synced scores,
maps every existing entry to a value at least as large; (e)
`nextQuestion` never changes the score map. -/
theorem scores_monotone_and_seeded :
    (∀ (catalog : List Question) (shuffle : List Question → List Question)
        (playerId : String) (store : Store) (newRoomId : String)
        (config : Option RoomConfig),
      (createRoom catalog shuffle playerId store newRoomId config).1 = true →
      ∃ room, findVal (createRoom catalog shuffle playerId store newRoomId config).2
          newRoomId = some room ∧
        findVal room.scores playerId = some 0) ∧
    (∀ (store : Store) (roomCode j : String) (room : GameRoomData),
      findVal store roomCode = some room →
      j ∉ room.players →
      room.players.length < 2 →
      findVal room.scores j = none →
      ∃ room', findVal (joinRoom j store roomCode).2 roomCode = some room' ∧
        findVal room'.scores j = some 0 ∧
        (∀ p, p ≠ j → findVal room'.scores p = findVal room.scores p)) ∧
    (∀ (catalog : List Question) (playerId : String) (store : Store)
        (roomCode : String) (answerIndex : Nat) (room : GameRoomData),
      findVal store roomCode = some room →
      ∃ room', findVal (submitAnswer catalog playerId store roomCode answerIndex).2
          roomCode = some room' ∧
        room'.scores = room.scores) ∧
    (∀ (playerId : String) (questions : List Question) (st : HomeState)
        (room : GameRoomData) (pa oa : Nat),
      st.gameState = GameState.playing →
      st.processedQuestion ≠ (room.currentQuestion : Int) →
      findVal room.answers playerId = some pa →
      findVal room.answers ((opponentId room playerId).getD "") = some oa →
      room.currentQuestion < questions.length →
      st.playerScore = (findVal room.scores playerId).getD 0 →
      st.opponentScore = (findVal room.scores ((opponentId room playerId).getD "")).getD 0 →
      ∃ st' w, processAnswers playerId questions st room = some (st', some w) ∧
        ∀ p s, findVal room.scores p = some s →
          ∃ s', findVal (mergeMap room.scores w) p = some s' ∧ s ≤ s') ∧
    (∀ (store : Store) (roomCode : String) (questionIndex : Nat) (room : GameRoomData),
      findVal store roomCode = some room →
      ∃ room', findVal (nextQuestion store roomCode questionIndex) roomCode = some room' ∧
        room'.scores = room.scores) := by
  refine ⟨?_, ?_, ?_, ?_, ?_⟩
  · intro catalog shuffle playerId store newRoomId config hsucc
    by_cases hzero :
        ((shuffle (filterQuestions catalog config)).take (cfgNum config)).length = 0
    · exfalso
      simp [createRoom, hzero] at hsucc
    · have hcr : createRoom catalog shuffle playerId store newRoomId config =
          (true, setKey store newRoomId
            { currentQuestion := 0
              started := false
              players := [playerId]
              scores := [(playerId, 0)]
              answers := []
              config := config
              questions :=
                ((shuffle (filterQuestions catalog config)).take (cfgNum config)).map (·.id) }) := by
        simp only [createRoom]
        rw [if_neg hzero]
      rw [hcr]
      exact ⟨_, findVal_setKey_self _ _ _, by simp [findVal]⟩
  · intro store roomCode j room hroom hnotmem hlen hnone
    have hjoin : joinRoom j store roomCode =
        (true, setKey store roomCode
          { room with
              players := room.players ++ [j]
              started := true
              scores := setKey room.scores j 0 }) := by
      simp [joinRoom, hroom, hnotmem, Nat.not_le.mpr hlen]
    rw [hjoin]
    exact ⟨_, findVal_setKey_self _ _ _, findVal_setKey_self _ _ _,
      fun p hp => findVal_setKey_ne _ _ _ _ hp⟩
  · intro catalog playerId store roomCode answerIndex room hroom
    rcases hq : room.questions[room.currentQuestion]? with _ | qid
    · exact ⟨room, by simp [submitAnswer, hroom, hq], rfl⟩
    · rcases hf : catalog.find? (fun q => q.id == qid) with _ | qq
      · exact ⟨room, by simp [submitAnswer, hroom, hq, hf], rfl⟩
      · exact ⟨{ room with answers := setKey room.answers playerId answerIndex },
          by simp [submitAnswer, hroom, hq, hf, findVal_setKey_self], rfl⟩
  · intro playerId questions st room pa oa hphase hproc hpa hoa hq hsync1 hsync2
    have hq' : questions[room.currentQuestion]? =
        some (questions.get ⟨room.currentQuestion, hq⟩) := by
      rw [List.getElem?_eq_getElem hq, List.get_eq_getElem]
    rcases ho : opponentId room playerId with _ | o
    · rw [ho] at hoa hsync2
      simp only [Option.getD_none] at hoa hsync2
      refine ⟨{ st with
          playerScore := st.playerScore +
            (if choiceCorrect (questions.get ⟨room.currentQuestion, hq⟩) pa then 1 else 0)
          opponentScore := st.opponentScore +
            (if choiceCorrect (questions.get ⟨room.currentQuestion, hq⟩) oa then 1 else 0)
          processedQuestion := (room.currentQuestion : Int) },
        [(playerId, st.playerScore +
          (if choiceCorrect (questions.get ⟨room.currentQuestion, hq⟩) pa then 1 else 0))],
        ?_, ?_⟩
      · simp [processAnswers, hphase, hproc, hpa, hoa, hq', ho]
      · intro p s hps
        by_cases hpp : p = playerId
        · subst hpp
          rw [hps] at hsync1
          simp only [Option.getD_some] at hsync1
          refine ⟨st.playerScore +
              (if choiceCorrect (questions.get ⟨room.currentQuestion, hq⟩) pa then 1 else 0),
            ?_, ?_⟩
          · simp only [mergeMap]
            exact findVal_setKey_self _ _ _
          · rw [hsync1]
            exact Nat.le_add_right _ _
        · refine ⟨s, ?_, le_refl s⟩
          simp only [mergeMap]
          rw [findVal_setKey_ne _ _ _ _ hpp]
          exact hps
    · rw [ho] at hoa hsync2
      simp only [Option.getD_some] at hoa hsync2
      have hop : o ≠ playerId := by
        have h1 : List.find? (fun id => decide (id ≠ playerId)) room.players = some o := by
          simpa [opponentId] using ho
        have h2 := List.find?_some h1
        simpa using h2
      refine ⟨{ st with
          playerScore := st.playerScore +
            (if choiceCorrect (questions.get ⟨room.currentQuestion, hq⟩) pa then 1 else 0)
          opponentScore := st.opponentScore +
            (if choiceCorrect (questions.get ⟨room.currentQuestion, hq⟩) oa then 1 else 0)
          processedQuestion := (room.currentQuestion : Int) },
        [(playerId, st.playerScore +
          (if choiceCorrect (questions.get ⟨room.currentQuestion, hq⟩) pa then 1 else 0)),
        (o, st.opponentScore +
          (if choiceCorrect (questions.get ⟨room.currentQuestion, hq⟩) oa then 1 else 0))],
        ?_, ?_⟩
      · simp [processAnswers, hphase, hproc, hpa, hoa, hq', ho]
      · intro p s hps
        by_cases hpp : p = playerId
        · subst hpp
          rw [hps] at hsync1
          simp only [Option.getD_some] at hsync1
          refine ⟨st.playerScore +
              (if choiceCorrect (questions.get ⟨room.currentQuestion, hq⟩) pa then 1 else 0),
            ?_, ?_⟩
          · simp only [mergeMap]
            rw [findVal_setKey_ne _ _ _ _ (Ne.symm hop)]
            exact findVal_setKey_self _ _ _
          · rw [hsync1]
            exact Nat.le_add_right _ _
        · by_cases hpo : p = o
          · subst hpo
            rw [hps] at hsync2
            simp only [Option.getD_some] at hsync2
            refine ⟨st.opponentScore +
                (if choiceCorrect (questions.get ⟨room.currentQuestion, hq⟩) oa then 1 else 0),
              ?_, ?_⟩
            · simp only [mergeMap]
              exact findVal_setKey_self _ _ _
            · rw [hsync2]
              exact Nat.le_add_right _ _
          · refine ⟨s, ?_, le_refl s⟩
            simp only [mergeMap]
            rw [findVal_setKey_ne _ _ _ _ hpo, findVal_setKey_ne _ _ _ _ hpp]
            exact hps
  · intro store roomCode questionIndex room hroom
    exact ⟨{ room with currentQuestion := questionIndex, answers := [] },
      by simp [nextQuestion, hroom, findVal_setKey_self], rfl⟩

/-- Witness for C9: on the concrete fixtures, creation seeds the creator
at 0; bob's join seeds bob at 0 and keeps the creator's entry; alice's
answer submission leaves the score map alone; alice's resolution merge
after both answers never lowers an existing entry; advancing the question
leaves the score map alone. -/
theorem scores_monotone_and_seeded_witness :
    (∃ room, findVal (createRoom sampleCatalog (fun l => l) "creator" [] "1234"
        sampleConfig).2 "1234" = some room ∧
      findVal room.scores "creator" = some 0) ∧
    (∃ room', findVal (joinRoom "bob" soloStore "1234").2 "1234" = some room' ∧
      findVal room'.scores "bob" = some 0 ∧
      (∀ p, p ≠ "bob" → findVal room'.scores p = findVal soloRoom.scores p)) ∧
    (∃ room', findVal (submitAnswer sampleCatalog "alice" sampleStore "1234" 0).2
        "1234" = some room' ∧
      room'.scores = sampleRoom.scores) ∧
    (∃ st' w, processAnswers "alice" [sampleQuestion] sampleState sampleRoom =
        some (st', some w) ∧
      ∀ p s, findVal sampleRoom.scores p = some s →
        ∃ s', findVal (mergeMap sampleRoom.scores w) p = some s' ∧ s ≤ s') ∧
    (∃ room', findVal (nextQuestion sampleStore "1234" 2) "1234" = some room' ∧
      room'.scores = sampleRoom.scores) :=
  ⟨scores_monotone_and_seeded.1 sampleCatalog (fun l => l) "creator" [] "1234"
      sampleConfig (by decide),
   scores_monotone_and_seeded.2.1 soloStore "1234" "bob" soloRoom
      (by decide) (by decide) (by decide) (by decide),
   scores_monotone_and_seeded.2.2.1 sampleCatalog "alice" sampleStore "1234" 0
      sampleRoom (by decide),
   scores_monotone_and_seeded.2.2.2.1 "alice" [sampleQuestion] sampleState sampleRoom
      0 1 (by decide) (by decide) (by decide) (by decide) (by decide) (by decide)
      (by decide),
   scores_monotone_and_seeded.2.2.2.2 sampleStore "1234" 2 sampleRoom (by decide)⟩

end SatDuel
